import Mathlib

/-!
Verification of the `run` actor-orchestration package.

The development shallowly embeds the orchestration engines found in the
repository and the supporting API surface:

* `OkRun` — the sidecar-aware engine of `group.go` (`Group.Run`,
  `Group.Add`, `Group.AddSidecar`): actors send their execute results on a
  buffered channel, the run loop waits for the first qualifying completion,
  interrupts every actor, drains the remaining completions and returns the
  first qualifying error.
* `CtxRun` — the context-based engine of the `group.run` variant
  (`closeTimeout` / `syncShutdown`): all executes are spawned, the first
  completion is taken as the authoritative error, a close context (with an
  optional deadline) is handed to every interrupt, and the run waits for
  every interrupt to return and every execute to be drained.
* `PkgRun` — the `Group` wrapper of `run.go` (conditional registration,
  liveness aggregation, delegation to the inner group) and the package-level
  singleton operations of `singleton.go`.
* `Compat` — the embeddable `ForwardCompatibility` defaults of
  `compatibility.go`.

Go `error` values are embedded as `Option E` (`none` is Go's `nil`).
Concurrency is embedded by quantifying over the order in which completions
arrive on the buffered channel (`arrivals`), and blocking is made explicit:
a function returning `Option` yields `none` exactly when the corresponding
Go code would block forever.
-/

namespace OkRun

/-- An actor as registered by `Group.Add` / `Group.AddSidecar` in `group.go`:
`executeResult` is the error value its `execute` function eventually returns
(the goroutine always sends exactly one result on the channel), and `sidecar`
is the flag set by `AddSidecar`. The `interrupt` function of an actor takes
the authoritative error and returns nothing; `Run` merely invokes it once per
actor, which the event trace below records. -/
structure SActor (E : Type) where
  executeResult : Option E
  sidecar : Bool
deriving DecidableEq

/-- A value sent on the buffered completion channel
(`actorExecutionResult` / `actorResult` in the source):
the sidecar flag and the error returned by `execute`. -/
structure SResult (E : Type) where
  fromSidecar : Bool
  err : Option E
deriving DecidableEq

/-- The message the spawned goroutine sends for an actor:
`{fromSidecar: a.sidecar, err: a.execute()}`. -/
def SActor.result {E : Type} (a : SActor E) : SResult E :=
  ⟨a.sidecar, a.executeResult⟩

/-- Orchestration events performed by `Run` itself: spawning an actor's
execute goroutine, and invoking an actor's interrupt function. -/
inductive Event where
  | spawn (i : Nat)
  | interrupt (i : Nat)
deriving DecidableEq

/-- The wait loop of `Group.Run` (`for waitCount > 0 { ... }`): receive a
result; a sidecar completion with a nil error only decrements `waitCount`,
anything else ends the loop and fixes the error. Returns `none` when the
receive would block forever (no further sends), otherwise
`some (err, waitCount, unconsumed results)`. -/
def waitLoop {E : Type} : List (SResult E) → Nat → Option (Option E × Nat × List (SResult E))
  | rest, 0 => some (none, 0, rest)
  | [], _ + 1 => none
  | r :: rest, k + 1 =>
    if r.fromSidecar && r.err.isNone then
      waitLoop rest k
    else
      some (r.err, k + 1, rest)

/-- The full `Group.Run` of `group.go`, returning the authoritative error and
the trace of orchestration events, for a given arrival order of the actors'
completions. `none` means the run blocks forever. Steps, as in the source:
return `nil` for an empty group; spawn every execute; run the wait loop;
invoke every interrupt (in registration order); drain `waitCount - 1`
further completions; return the original error. -/
def GroupRunT {E : Type} (actors : List (SActor E)) (arrivals : List (SResult E)) :
    Option (Option E × List Event) :=
  if actors.length = 0 then some (none, [])
  else
    match waitLoop arrivals actors.length with
    | none => none
    | some (err, wc, rest) =>
      if wc - 1 ≤ rest.length then
        some (err, (List.range actors.length).map Event.spawn
          ++ (List.range actors.length).map Event.interrupt)
      else
        none

/-- The error `Group.Run` returns (projection of `GroupRunT`). -/
def GroupRun {E : Type} (actors : List (SActor E)) (arrivals : List (SResult E)) :
    Option (Option E) :=
  (GroupRunT actors arrivals).map Prod.fst

/-- Spec-side characterization of a completion that triggers shutdown:
it comes from a non-sidecar actor (any error value) or carries a non-nil
error. -/
def qualifying {E : Type} (r : SResult E) : Bool :=
  !r.fromSidecar || !r.err.isNone

/-- Spec-side characterization of the authoritative error: the error of the
first qualifying completion in arrival order (nil when no completion
qualifies). -/
def authoritativeErr {E : Type} (arrivals : List (SResult E)) : Option E :=
  match arrivals.find? qualifying with
  | some r => r.err
  | none => none

end OkRun

namespace CtxRun

/-- An actor of the context-based `group` variant
(`add(execute func(context.Context) error, interrupt func(context.Context) error)`):
`executeResult` is the error its execute eventually sends on `runCh`, and
`interruptDur d` is the time `interrupt(closeCtx)` takes to return when the
close context carries deadline `d` (`none` deadline = `context.Background()`);
an `interruptDur` result of `none` means that interrupt never returns. The
error value an interrupt returns is discarded by `run` and therefore not
modelled. -/
structure CActor (E : Type) where
  executeResult : Option E
  interruptDur : Option Nat → Option Nat

/-- The `group` struct of the context-based variant: actors plus the
configuration written by `WithCloseTimeout` and `WithSyncShutdown`
(`closeTimeout = 0` means unbounded). -/
structure CGroup (E : Type) where
  actors : List (CActor E)
  closeTimeout : Nat
  syncShutdown : Bool

/-- The deadline of the close context built by `run`:
`context.Background()` when `closeTimeout == 0`, otherwise a context that
expires after `closeTimeout`. -/
def closeDeadline {E : Type} (g : CGroup E) : Option Nat :=
  if g.closeTimeout = 0 then none else some g.closeTimeout

/-- Duration accumulator for the close phase: folds the interrupt durations
with `combine`, absorbing a never-returning interrupt into `none`. -/
def accDur {E : Type} (combine : Nat → Nat → Nat) (d : Option Nat)
    (actors : List (CActor E)) : Option Nat :=
  actors.foldl
    (fun acc a =>
      match acc, a.interruptDur d with
      | some s, some t => some (combine s t)
      | _, _ => none)
    (some 0)

/-- Time until every send on `closeCh` has happened, in the synchronous
branch (`shutdown(a)` called inline, one after the other): the sum of the
interrupt durations; `none` when one interrupt never returns (the loop is
stuck there and `closeCh` never fills). -/
def syncCloseDur {E : Type} (d : Option Nat) (actors : List (CActor E)) : Option Nat :=
  accDur (· + ·) d actors

/-- Time until every send on `closeCh` has happened, in the concurrent
branch (`go shutdown(a)` for every actor): they run in parallel, so the wait
ends when the slowest interrupt returns; `none` when one never returns. -/
def asyncCloseDur {E : Type} (d : Option Nat) (actors : List (CActor E)) : Option Nat :=
  accDur max d actors

/-- Duration of `run`'s wait for the close phase
(`for i := 0; i < cap(closeCh); i++ { <-closeCh }`): the loop only ends once
every interrupt has returned and sent on `closeCh`; the close context's
deadline is handed to the interrupts but never consulted by the wait itself. -/
def closePhaseDur {E : Type} (g : CGroup E) : Option Nat :=
  if g.syncShutdown then syncCloseDur (closeDeadline g) g.actors
  else asyncCloseDur (closeDeadline g) g.actors

/-- Interrupt-phase events in the synchronous branch: `closeStart i` when
`a.interrupt(closeCtx)` is invoked for the `i`-th registered actor,
`closeRet i` when it returns. -/
inductive CEvent where
  | closeStart (i : Nat)
  | closeRet (i : Nat)
deriving DecidableEq

/-- Event log of the synchronous shutdown loop, starting at registration
index `i`: each interrupt is invoked inline; when it returns the loop moves
to the next actor, and when it never returns the log ends at its start
event. -/
def syncCloseEvents {E : Type} (d : Option Nat) : List (CActor E) → Nat → List CEvent
  | [], _ => []
  | a :: rest, i =>
    match a.interruptDur d with
    | some _ => CEvent.closeStart i :: CEvent.closeRet i :: syncCloseEvents d rest (i + 1)
    | none => [CEvent.closeStart i]

/-- The interrupt-phase event log of a run: determined by the code only in
the synchronous branch; in the concurrent branch the interleaving is chosen
by the scheduler, which this model does not fix. -/
def closeLog {E : Type} (g : CGroup E) : Option (List CEvent) :=
  if g.syncShutdown then some (syncCloseEvents (closeDeadline g) g.actors 0) else none

/-- The completions recorded in an interrupt-phase event log, in order. -/
def completionsOf (evs : List CEvent) : List Nat :=
  evs.filterMap fun e =>
    match e with
    | CEvent.closeRet i => some i
    | _ => none

/-- Spec-side: the expected event log of a strictly sequential shutdown
starting at registration index `s` — each interrupt invoked and awaited to
completion before the next one starts. -/
def pairedEvents : Nat → Nat → List CEvent
  | _, 0 => []
  | s, n + 1 => CEvent.closeStart s :: CEvent.closeRet s :: pairedEvents (s + 1) n

/-- The `run` of the context-based `group`, for a given arrival order of the
execute results on `runCh`. Steps, as in the source: return `nil` for an
empty group; spawn every execute; `err := <-runCh`; cancel the run context;
build the close context from `closeTimeout`; run the shutdown loop and wait
for every `closeCh` send; drain `len(actors) - 1` further `runCh` receives;
return `err`. The result is `none` when `run` blocks forever, otherwise
`some (t, err)` where `t` is how long the close-phase wait lasted. -/
def run {E : Type} (g : CGroup E) (arrivals : List (Option E)) : Option (Nat × Option E) :=
  if g.actors.length = 0 then some (0, none)
  else
    match arrivals with
    | [] => none
    | e :: rest =>
      match closePhaseDur g with
      | none => none
      | some t => if g.actors.length - 1 ≤ rest.length then some (t, e) else none

end CtxRun

namespace PkgRun

/-- A registered Runnable as the orchestrator of `run.go` observes it: its
`Alive()` value, the error its `Run` eventually returns, and the duration
behavior of its `Close` once wrapped as the inner group's interrupt.
Logging metadata (`Name`, `Fields`) does not influence orchestration and is
not modelled. -/
structure Runnable (E : Type) where
  alive : Bool
  executeResult : Option E
  interruptDur : Option Nat → Option Nat

/-- The `Group` of `run.go`: the registered Runnables plus the inner `group`
holding the wrapped actors and the configuration. -/
structure Group (E : Type) where
  runnables : List (Runnable E)
  inner : CtxRun.CGroup E

/-- The wrapped actor `Group.add` hands to the inner group: its execute runs
`r.Run`, its interrupt runs `r.Close` (the logging wrappers around them are
dropped — they do not change any result). -/
def Runnable.toActor {E : Type} (r : Runnable E) : CtxRun.CActor E :=
  ⟨r.executeResult, r.interruptDur⟩

/-- `Group.add`: append the Runnable and register its wrapped actor on the
inner group. -/
def Group.add {E : Type} (g : Group E) (r : Runnable E) : Group E :=
  { runnables := g.runnables ++ [r],
    inner := { g.inner with actors := g.inner.actors ++ [r.toActor] } }

/-- `Group.Add(when, runnables...)`: append each Runnable in order if the
condition is met, otherwise leave the group unchanged. -/
def Group.Add {E : Type} (g : Group E) (when : Bool) (rs : List (Runnable E)) : Group E :=
  if when then rs.foldl Group.add g else g

/-- `Group.Run`: pure delegation to the inner group's `run`. -/
def Group.Run {E : Type} (g : Group E) (arrivals : List (Option E)) : Option (Nat × Option E) :=
  CtxRun.run g.inner arrivals

/-- The loop body of `Group.Alive` (`run.go` lines 121-129): return false at
the first registered Runnable whose `Alive()` is false, true when the loop
finishes. -/
def aliveLoop {E : Type} : List (Runnable E) → Bool
  | [] => true
  | r :: rest => if r.alive then aliveLoop rest else false

/-- `Group.Alive`: aggregate liveness over the registered Runnables. -/
def Group.Alive {E : Type} (g : Group E) : Bool :=
  aliveLoop g.runnables

/-- Package-level `Add` of `singleton.go`: delegation to the global Group,
made explicit here as the state argument. -/
def Add {E : Type} (when : Bool) (rs : List (Runnable E)) (singletonState : Group E) :
    Group E :=
  Group.Add singletonState when rs

/-- Package-level `Run` of `singleton.go`: delegation to the global Group. -/
def Run {E : Type} (singletonState : Group E) (arrivals : List (Option E)) :
    Option (Nat × Option E) :=
  Group.Run singletonState arrivals

/-- Package-level `Alive` of `singleton.go`: delegation to the global Group. -/
def Alive {E : Type} (singletonState : Group E) : Bool :=
  Group.Alive singletonState

/-- The names of the package-level operations defined in `singleton.go`. -/
def singletonOps : List String := ["Add", "Run", "Alive"]

/-- Spec-side: flip the liveness of the `i`-th registered component, leaving
everything else unchanged. -/
def flipAliveAt {E : Type} (rs : List (Runnable E)) (i : Nat) : List (Runnable E) :=
  match rs.get? i with
  | some r => rs.set i { r with alive := !r.alive }
  | none => rs

end PkgRun

namespace Compat

/-- Outcome of calling a Go method: it either panics with a message or
returns a value. -/
inductive PanicOr (α : Type) where
  | panics (msg : String)
  | returns (val : α)
deriving DecidableEq

/-- `ForwardCompatibility.Run` of `compatibility.go`: panics for every
context. `Ctx` stands for `context.Context`. -/
def FCRun (Ctx E : Type) : Ctx → PanicOr (Option E) :=
  fun _ => PanicOr.panics "runnables must implement run"

/-- `ForwardCompatibility.Close` of `compatibility.go`: returns nil for
every context. -/
def FCClose (Ctx E : Type) : Ctx → PanicOr (Option E) :=
  fun _ => PanicOr.returns none

/-- `ForwardCompatibility.Alive`: returns true. -/
def FCAlive : PanicOr Bool := PanicOr.returns true

/-- `ForwardCompatibility.Name`: returns the placeholder name. -/
def FCName : PanicOr String := PanicOr.returns "unknown"

/-- `ForwardCompatibility.Fields`: returns the empty attribute list; `A`
stands for `slog.Attr`. -/
def FCFields (A : Type) : PanicOr (List A) := PanicOr.returns []

end Compat

namespace OkRun

theorem waitLoop_zero {E : Type} (rest : List (SResult E)) :
    waitLoop rest 0 = some (none, 0, rest) := by
  cases rest <;> rfl

theorem waitLoop_cond_eq {E : Type} (r : SResult E) :
    (r.fromSidecar && r.err.isNone) = !qualifying r := by
  cases hs : r.fromSidecar <;> cases he : r.err <;> simp [qualifying, hs, he]

/-- The wait loop, started with `waitCount` equal to the number of pending
completions, never blocks, ends with the authoritative error, and leaves at
least `waitCount - 1` completions still pending for the drain loop. -/
theorem waitLoop_full {E : Type} :
    ∀ arrivals : List (SResult E),
      ∃ wc rest, waitLoop arrivals arrivals.length = some (authoritativeErr arrivals, wc, rest) ∧
        wc - 1 ≤ rest.length
  | [] => ⟨0, [], rfl, by simp⟩
  | r :: rest => by
    rw [List.length_cons]
    by_cases hq : qualifying r
    · refine ⟨rest.length + 1, rest, ?_, by simp⟩
      rw [waitLoop, waitLoop_cond_eq, hq]
      simp [authoritativeErr, List.find?, hq]
    · obtain ⟨wc, rest', h, hle⟩ := waitLoop_full rest
      refine ⟨wc, rest', ?_, hle⟩
      rw [waitLoop, waitLoop_cond_eq]
      have hq' : qualifying r = false := by simpa using hq
      simp only [hq', Bool.not_false, if_pos]
      rw [h]
      simp [authoritativeErr, List.find?, hq']

theorem Event.spawn_injective : Function.Injective Event.spawn :=
  fun _ _ h => Event.spawn.inj h

theorem Event.interrupt_injective : Function.Injective Event.interrupt :=
  fun _ _ h => Event.interrupt.inj h

/-- The wait loop consumes every completion (and ends with a nil error) when
no completion qualifies. -/
theorem waitLoop_no_qualifying {E : Type} :
    ∀ arrivals : List (SResult E), (∀ r ∈ arrivals, qualifying r = false) →
      waitLoop arrivals arrivals.length = some (none, 0, [])
  | [], _ => rfl
  | r :: rest, h => by
    rw [List.length_cons, waitLoop, waitLoop_cond_eq]
    have hr : qualifying r = false := h r (by simp)
    simp only [hr, Bool.not_false, if_pos]
    exact waitLoop_no_qualifying rest fun x hx => h x (by simp [hx])

end OkRun

namespace CtxRun

theorem accDur_absorb {E : Type} (combine : Nat → Nat → Nat) (d : Option Nat) :
    ∀ actors : List (CActor E),
      actors.foldl
        (fun acc a =>
          match acc, a.interruptDur d with
          | some s, some t => some (combine s t)
          | _, _ => none)
        none = none
  | [] => rfl
  | a :: rest => by
    rw [List.foldl_cons]
    cases a.interruptDur d <;> exact accDur_absorb combine d rest

theorem accDur_isSome {E : Type} (combine : Nat → Nat → Nat) (d : Option Nat) :
    ∀ (actors : List (CActor E)) (s : Nat),
      (actors.foldl
        (fun acc a =>
          match acc, a.interruptDur d with
          | some s, some t => some (combine s t)
          | _, _ => none)
        (some s)).isSome = true ↔ ∀ a ∈ actors, (a.interruptDur d).isSome = true
  | [], s => by simp
  | a :: rest, s => by
    rw [List.foldl_cons]
    cases ha : a.interruptDur d with
    | none =>
      simp only []
      rw [accDur_absorb]
      constructor
      · intro h; cases h
      · intro h
        have hmem := h a (by simp)
        rw [ha] at hmem
        cases hmem
    | some t =>
      simp only []
      rw [accDur_isSome combine d rest (combine s t)]
      constructor
      · intro h b hb
        rcases List.mem_cons.1 hb with rfl | hb'
        · rw [ha]; rfl
        · exact h b hb'
      · intro h b hb
        exact h b (List.mem_cons_of_mem a hb)

/-- The close-phase wait ends exactly when every interrupt returns, in both
shutdown modes. -/
theorem closePhaseDur_isSome {E : Type} (g : CGroup E) :
    (closePhaseDur g).isSome = true ↔
      ∀ a ∈ g.actors, (a.interruptDur (closeDeadline g)).isSome = true := by
  unfold closePhaseDur syncCloseDur asyncCloseDur accDur
  cases g.syncShutdown <;> simp only [if_true, if_false, Bool.false_eq_true] <;>
    exact accDur_isSome _ _ g.actors 0

/-- When every interrupt returns, the synchronous shutdown loop produces the
strictly sequential start/return event log. -/
theorem syncCloseEvents_all_ret {E : Type} (d : Option Nat) :
    ∀ (actors : List (CActor E)) (s : Nat),
      (∀ a ∈ actors, (a.interruptDur d).isSome = true) →
      syncCloseEvents d actors s = pairedEvents s actors.length
  | [], _, _ => rfl
  | a :: rest, s, h => by
    obtain ⟨t, ht⟩ := Option.isSome_iff_exists.mp (h a (by simp))
    rw [List.length_cons, syncCloseEvents, ht, pairedEvents]
    exact congrArg _ (congrArg _
      (syncCloseEvents_all_ret d rest (s + 1) fun x hx => h x (List.mem_cons_of_mem a hx)))

/-- The completions of the strictly sequential event log are the
registration indices in order. -/
theorem completionsOf_pairedEvents :
    ∀ (n s : Nat), completionsOf (pairedEvents s n) = List.range' s n
  | 0, s => rfl
  | n + 1, s => by
    rw [pairedEvents, List.range'_succ]
    show s :: completionsOf (pairedEvents (s + 1) n) = s :: List.range' (s + 1) n
    rw [completionsOf_pairedEvents n (s + 1)]

end CtxRun

namespace PkgRun

theorem aliveLoop_eq_true_iff {E : Type} :
    ∀ rs : List (Runnable E), aliveLoop rs = true ↔ ∀ r ∈ rs, r.alive = true
  | [] => by simp [aliveLoop]
  | r :: rest => by
    cases hr : r.alive with
    | false =>
      simp only [aliveLoop, hr, if_false]
      constructor
      · intro h; cases h
      · intro h
        have := h r (by simp)
        rw [this] at hr
        cases hr
    | true =>
      simp only [aliveLoop, hr, if_true]
      rw [aliveLoop_eq_true_iff rest]
      constructor
      · intro h x hx
        rcases List.mem_cons.1 hx with rfl | hx'
        · exact hr
        · exact h x hx'
      · intro h x hx
        exact h x (List.mem_cons_of_mem r hx)

theorem flipAliveAt_cons_succ {E : Type} (r : Runnable E) (rest : List (Runnable E)) (k : Nat) :
    flipAliveAt (r :: rest) (k + 1) = r :: flipAliveAt rest k := by
  unfold flipAliveAt
  rw [List.get?_cons_succ]
  cases rest.get? k <;> rfl

/-- Flipping the liveness of component `i` flips the aggregate, provided
every other component is alive. -/
theorem aliveLoop_flip {E : Type} :
    ∀ (rs : List (Runnable E)) (i : Nat), i < rs.length →
      (∀ j, (hj : j < rs.length) → j ≠ i → (rs.get ⟨j, hj⟩).alive = true) →
      aliveLoop (flipAliveAt rs i) = !aliveLoop rs
  | [], i, hi, _ => absurd hi (by simp)
  | r :: rest, 0, _, hothers => by
    have hrest : aliveLoop rest = true := by
      rw [aliveLoop_eq_true_iff]
      intro x hx
      obtain ⟨⟨j, hj⟩, rfl⟩ := List.mem_iff_get.mp hx
      have := hothers (j + 1) (by simpa using Nat.succ_lt_succ hj) (by simp)
      simpa using this
    show aliveLoop ({ r with alive := !r.alive } :: rest) = !aliveLoop (r :: rest)
    rw [aliveLoop, aliveLoop]
    cases hr : r.alive <;> simp [hr, hrest]
  | r :: rest, k + 1, hi, hothers => by
    have hr : r.alive = true := by
      have := hothers 0 (by simp) (by simp)
      simpa using this
    rw [flipAliveAt_cons_succ, aliveLoop, aliveLoop, if_pos hr, if_pos hr]
    refine aliveLoop_flip rest k (by simpa using Nat.lt_of_succ_lt_succ hi) ?_
    intro j hj hne
    have := hothers (j + 1) (by simpa using Nat.succ_lt_succ hj) (by simpa using hne)
    simpa using this

end PkgRun

/-- C1: for every non-empty set of registered actors, `Run` returns exactly
the error of the first qualifying completion in arrival order — the run
terminates (later completions are drained from the buffered channel, never
blocking), and no later completion overwrites the authoritative error. In
the context-based variant, once every interrupt returns, `run` returns the
first arrival's error — interrupt results and later completions never
replace it. -/
theorem run_returns_first_qualifying_error (E : Type) :
    (∀ (actors : List (OkRun.SActor E)) (arrivals : List (OkRun.SResult E)),
      actors ≠ [] → arrivals.Perm (actors.map OkRun.SActor.result) →
      OkRun.GroupRun actors arrivals = some (OkRun.authoritativeErr arrivals)) ∧
    (∀ (g : CtxRun.CGroup E) (e : Option E) (rest : List (Option E)),
      rest.length + 1 = g.actors.length →
      (∀ a ∈ g.actors, (a.interruptDur (CtxRun.closeDeadline g)).isSome = true) →
      ∃ t, CtxRun.run g (e :: rest) = some (t, e)) := by
  constructor
  · intro actors arrivals hne hperm
    have hlen : arrivals.length = actors.length := by
      simpa using hperm.length_eq
    have hn : ¬actors.length = 0 := by
      intro h
      exact hne (List.length_eq_zero.mp h)
    obtain ⟨wc, rest, hw, hle⟩ := OkRun.waitLoop_full arrivals
    unfold OkRun.GroupRun OkRun.GroupRunT
    rw [if_neg hn, ← hlen, hw]
    show Option.map Prod.fst (if wc - 1 ≤ rest.length then
        some (OkRun.authoritativeErr arrivals,
          (List.range arrivals.length).map OkRun.Event.spawn
            ++ (List.range arrivals.length).map OkRun.Event.interrupt)
      else none) = some (OkRun.authoritativeErr arrivals)
    rw [if_pos hle]
    rfl
  · intro g e rest hlen hret
    have hn : ¬g.actors.length = 0 := by omega
    have hd : g.actors.length - 1 ≤ rest.length := by omega
    obtain ⟨t, ht⟩ :=
      Option.isSome_iff_exists.mp ((CtxRun.closePhaseDur_isSome g).mpr hret)
    refine ⟨t, ?_⟩
    unfold CtxRun.run
    rw [if_neg hn]
    show (match CtxRun.closePhaseDur g with
      | none => none
      | some t => if g.actors.length - 1 ≤ rest.length then some (t, e) else none) = _
    rw [ht]
    show (if g.actors.length - 1 ≤ rest.length then some (t, e) else none) = some (t, e)
    rw [if_pos hd]

/-- C1 witness: a sidecar completing with nil first, then a regular actor
with error 7 — `Run` returns 7; and the context-based run returns the first
arrival once the single interrupt returns. -/
theorem run_returns_first_qualifying_error_witness :
    OkRun.GroupRun [⟨some 7, false⟩, ⟨none, true⟩] [⟨true, none⟩, ⟨false, some 7⟩]
      = some (OkRun.authoritativeErr [⟨true, none⟩, ⟨false, some 7⟩]) ∧
    ∃ t, CtxRun.run (⟨[⟨none, fun _ => some 2⟩], 0, false⟩ : CtxRun.CGroup Nat) [none]
      = some (t, none) :=
  ⟨(run_returns_first_qualifying_error Nat).1 _ _ (by decide) (by decide),
   (run_returns_first_qualifying_error Nat).2 _ none [] (by decide)
     (by
       intro a ha
       rw [List.mem_singleton] at ha
       subst ha
       rfl)⟩

/-- C2 counterexample: with `closeTimeout = 1` and a single actor whose
interrupt never returns (it certainly blocks longer than the timeout),
`run` never returns at all — the wait on the interrupt phase is not
abandoned at the timeout. With an interrupt that returns after 5 time
units, `run` does return, but its close-phase wait lasts the full 5 units,
not the timeout 1. -/
theorem close_timeout_not_abandoned :
    (⟨[⟨none, fun _ => none⟩], 1, false⟩ : CtxRun.CGroup Nat).closeTimeout ≠ 0 ∧
    CtxRun.run (⟨[⟨none, fun _ => none⟩], 1, false⟩ : CtxRun.CGroup Nat) [none] = none ∧
    CtxRun.run (⟨[⟨none, fun _ => some 5⟩], 1, false⟩ : CtxRun.CGroup Nat) [none]
      = some (5, none) :=
  ⟨by decide, rfl, rfl⟩

/-- C2 amended: the close timeout only shapes the deadline of the context
handed to the interrupts; the orchestrator's wait on the interrupt phase is
never abandoned — `run` returns exactly when every interrupt returns (an
interrupt that ignores its context delays `run` indefinitely). -/
theorem run_waits_for_every_interrupt {E : Type} (g : CtxRun.CGroup E)
    (arrivals : List (Option E)) (hlen : arrivals.length = g.actors.length) :
    (CtxRun.run g arrivals).isSome = true ↔
      (g.actors = [] ∨ ∀ a ∈ g.actors, (a.interruptDur (CtxRun.closeDeadline g)).isSome = true) := by
  by_cases h0 : g.actors.length = 0
  · have ha : g.actors = [] := List.length_eq_zero.mp h0
    unfold CtxRun.run
    rw [if_pos h0]
    simp [ha]
  · have ha : g.actors ≠ [] := fun h => h0 (by simp [h])
    cases arrivals with
    | nil =>
      rw [List.length_nil] at hlen
      exact absurd hlen.symm h0
    | cons e rest =>
      have hd : g.actors.length - 1 ≤ rest.length := by
        rw [List.length_cons] at hlen
        omega
      have key : (CtxRun.run g (e :: rest)).isSome = (CtxRun.closePhaseDur g).isSome := by
        unfold CtxRun.run
        rw [if_neg h0]
        show (match CtxRun.closePhaseDur g with
          | none => none
          | some t => if g.actors.length - 1 ≤ rest.length then some (t, e) else none).isSome
          = _
        cases CtxRun.closePhaseDur g with
        | none => rfl
        | some t =>
          show (if g.actors.length - 1 ≤ rest.length then some (t, e) else none).isSome
            = (some t).isSome
          rw [if_pos hd]
          rfl
      rw [key, CtxRun.closePhaseDur_isSome]
      exact (or_iff_right ha).symm

/-- C2 amended witness: one actor whose interrupt returns after 3 units,
`closeTimeout = 2`, synchronous shutdown. -/
theorem run_waits_for_every_interrupt_witness :
    (CtxRun.run (⟨[⟨none, fun _ => some 3⟩], 2, true⟩ : CtxRun.CGroup Nat) [none]).isSome = true ↔
      ((⟨[⟨none, fun _ => some 3⟩], 2, true⟩ : CtxRun.CGroup Nat).actors = [] ∨
        ∀ a ∈ (⟨[⟨none, fun _ => some 3⟩], 2, true⟩ : CtxRun.CGroup Nat).actors,
          (a.interruptDur
            (CtxRun.closeDeadline (⟨[⟨none, fun _ => some 3⟩], 2, true⟩ : CtxRun.CGroup Nat))).isSome
            = true) :=
  run_waits_for_every_interrupt _ [none] (by decide)

/-- C7: with zero registered actors, both run variants return nil
immediately, with no coordination: no spawn, no interrupt, no channel
operation (the event trace is empty), for any configuration. -/
theorem zero_actors_returns_nil (E : Type) :
    OkRun.GroupRunT ([] : List (OkRun.SActor E)) [] = some (none, []) ∧
    ∀ (ct : Nat) (ss : Bool), CtxRun.run (⟨[], ct, ss⟩ : CtxRun.CGroup E) [] = some (0, none) :=
  ⟨rfl, fun _ _ => rfl⟩

/-- C3: a completion triggers the transition to the interrupt phase iff it
qualifies — it comes from a non-sidecar actor (any error, nil included) or
carries a non-nil error. A qualifying completion arriving first makes its
error authoritative immediately; a sidecar's nil completion arriving first
is transparent: the run proceeds exactly as the run of the remaining actors
on the remaining completions, so the others keep running. -/
theorem completion_trigger_characterization (E : Type) :
    (∀ (actors : List (OkRun.SActor E)) (r : OkRun.SResult E)
        (rest : List (OkRun.SResult E)),
      rest.length + 1 = actors.length → OkRun.qualifying r = true →
      OkRun.GroupRun actors (r :: rest) = some r.err) ∧
    (∀ (a : OkRun.SActor E) (actors : List (OkRun.SActor E))
        (rest : List (OkRun.SResult E)),
      a.sidecar = true → a.executeResult = none →
      OkRun.GroupRun (a :: actors) (a.result :: rest) = OkRun.GroupRun actors rest) := by
  constructor
  · intro actors r rest hlen hq
    have hn : ¬actors.length = 0 := by omega
    unfold OkRun.GroupRun OkRun.GroupRunT
    rw [if_neg hn, ← hlen, OkRun.waitLoop, OkRun.waitLoop_cond_eq, hq]
    show Option.map Prod.fst (if rest.length + 1 - 1 ≤ rest.length then
        some (r.err, (List.range (rest.length + 1)).map OkRun.Event.spawn
          ++ (List.range (rest.length + 1)).map OkRun.Event.interrupt)
      else none) = some r.err
    rw [if_pos (by omega)]
    rfl
  · intro a actors rest hsc hex
    have hres : OkRun.SActor.result a = ⟨true, none⟩ := by
      simp [OkRun.SActor.result, hsc, hex]
    have hWL : OkRun.waitLoop (OkRun.SActor.result a :: rest) (actors.length + 1)
        = OkRun.waitLoop rest actors.length := by
      rw [hres, OkRun.waitLoop]
      simp
    unfold OkRun.GroupRun OkRun.GroupRunT
    rw [List.length_cons, if_neg (by omega), hWL]
    by_cases h0 : actors.length = 0
    · have hact : actors = [] := List.length_eq_zero.mp h0
      subst hact
      simp only [List.length_nil]
      rw [if_pos trivial, OkRun.waitLoop_zero]
      show Option.map Prod.fst (if 0 - 1 ≤ rest.length then
          some ((none : Option E), (List.range (0 + 1)).map OkRun.Event.spawn
            ++ (List.range (0 + 1)).map OkRun.Event.interrupt)
        else none) = Option.map Prod.fst (some ((none : Option E), ([] : List OkRun.Event)))
      rw [if_pos (by omega)]
      rfl
    · rw [if_neg h0]
      cases hw : OkRun.waitLoop rest actors.length with
      | none => rfl
      | some v =>
        obtain ⟨err, wc, rest'⟩ := v
        by_cases hdr : wc - 1 ≤ rest'.length
        · show Option.map Prod.fst (if wc - 1 ≤ rest'.length then
              some (err, (List.range (actors.length + 1)).map OkRun.Event.spawn
                ++ (List.range (actors.length + 1)).map OkRun.Event.interrupt)
            else none)
            = Option.map Prod.fst (if wc - 1 ≤ rest'.length then
              some (err, (List.range actors.length).map OkRun.Event.spawn
                ++ (List.range actors.length).map OkRun.Event.interrupt)
            else none)
          rw [if_pos hdr, if_pos hdr]
          rfl
        · show Option.map Prod.fst (if wc - 1 ≤ rest'.length then
              some (err, (List.range (actors.length + 1)).map OkRun.Event.spawn
                ++ (List.range (actors.length + 1)).map OkRun.Event.interrupt)
            else none)
            = Option.map Prod.fst (if wc - 1 ≤ rest'.length then
              some (err, (List.range actors.length).map OkRun.Event.spawn
                ++ (List.range actors.length).map OkRun.Event.interrupt)
            else none)
          rw [if_neg hdr, if_neg hdr]

/-- C5: in every run, each registered actor's execute is spawned exactly
once and its interrupt is invoked exactly once — whatever the order in which
completions arrive, so in particular regardless of whether that actor's
execute had already returned when shutdown triggered. -/
theorem execute_interrupt_exactly_once {E : Type}
    (actors : List (OkRun.SActor E)) (arrivals : List (OkRun.SResult E)) (i : Nat)
    (hperm : arrivals.Perm (actors.map OkRun.SActor.result))
    (hi : i < actors.length) :
    ∃ err trace, OkRun.GroupRunT actors arrivals = some (err, trace) ∧
      trace.count (OkRun.Event.spawn i) = 1 ∧
      trace.count (OkRun.Event.interrupt i) = 1 := by
  have hlen : arrivals.length = actors.length := by simpa using hperm.length_eq
  have hn : ¬actors.length = 0 := by omega
  obtain ⟨wc, rest, hw, hle⟩ := OkRun.waitLoop_full arrivals
  refine ⟨OkRun.authoritativeErr arrivals,
    (List.range actors.length).map OkRun.Event.spawn
      ++ (List.range actors.length).map OkRun.Event.interrupt, ?_, ?_, ?_⟩
  · unfold OkRun.GroupRunT
    rw [if_neg hn, ← hlen, hw]
    show (if wc - 1 ≤ rest.length then
        some (OkRun.authoritativeErr arrivals,
          (List.range arrivals.length).map OkRun.Event.spawn
            ++ (List.range arrivals.length).map OkRun.Event.interrupt)
      else none) = _
    rw [if_pos hle, hlen]
  · rw [List.count_append]
    have h1 : ((List.range actors.length).map OkRun.Event.spawn).count (OkRun.Event.spawn i)
        = 1 := by
      rw [List.count_map_of_injective _ _ OkRun.Event.spawn_injective]
      exact List.count_eq_one_of_mem (List.nodup_range _) (List.mem_range.mpr hi)
    have h2 : ((List.range actors.length).map OkRun.Event.interrupt).count (OkRun.Event.spawn i)
        = 0 := by
      rw [List.count_eq_zero]
      simp
    rw [h1, h2]
  · rw [List.count_append]
    have h1 : ((List.range actors.length).map OkRun.Event.spawn).count (OkRun.Event.interrupt i)
        = 0 := by
      rw [List.count_eq_zero]
      simp
    have h2 : ((List.range actors.length).map OkRun.Event.interrupt).count
        (OkRun.Event.interrupt i) = 1 := by
      rw [List.count_map_of_injective _ _ OkRun.Event.interrupt_injective]
      exact List.count_eq_one_of_mem (List.nodup_range _) (List.mem_range.mpr hi)
    rw [h1, h2]

/-- C5 witness: two actors, completions arriving in reverse registration
order; actor 0 is spawned once and interrupted once. -/
theorem execute_interrupt_exactly_once_witness :
    ∃ err trace,
      OkRun.GroupRunT [(⟨some 1, false⟩ : OkRun.SActor Nat), ⟨none, false⟩]
        [⟨false, none⟩, ⟨false, some 1⟩] = some (err, trace) ∧
      trace.count (OkRun.Event.spawn 0) = 1 ∧
      trace.count (OkRun.Event.interrupt 0) = 1 :=
  execute_interrupt_exactly_once [⟨some 1, false⟩, ⟨none, false⟩]
    [⟨false, none⟩, ⟨false, some 1⟩] 0 (by decide) (by decide)

/-- C6: in a group consisting solely of sidecar actors all of which complete
with a nil error, `Run` terminates and returns nil, and its wait loop has
consumed every completion (all sidecars finished) before it returns. -/
theorem all_sidecars_nil_terminates {E : Type}
    (actors : List (OkRun.SActor E)) (arrivals : List (OkRun.SResult E))
    (hperm : arrivals.Perm (actors.map OkRun.SActor.result))
    (hall : ∀ a ∈ actors, a.sidecar = true ∧ a.executeResult = none) :
    OkRun.GroupRun actors arrivals = some none ∧
      OkRun.waitLoop arrivals actors.length = some (none, 0, []) := by
  have hlen : arrivals.length = actors.length := by simpa using hperm.length_eq
  have hnq : ∀ r ∈ arrivals, OkRun.qualifying r = false := by
    intro r hr
    obtain ⟨a, ha, rfl⟩ := List.mem_map.mp (hperm.mem_iff.mp hr)
    obtain ⟨hs, he⟩ := hall a ha
    simp [OkRun.SActor.result, OkRun.qualifying, hs, he]
  have hwl : OkRun.waitLoop arrivals actors.length = some (none, 0, []) := by
    rw [← hlen]
    exact OkRun.waitLoop_no_qualifying arrivals hnq
  refine ⟨?_, hwl⟩
  by_cases h0 : actors.length = 0
  · unfold OkRun.GroupRun OkRun.GroupRunT
    rw [if_pos h0]
    rfl
  · unfold OkRun.GroupRun OkRun.GroupRunT
    rw [if_neg h0, hwl]
    show Option.map Prod.fst (if 0 - 1 ≤ ([] : List (OkRun.SResult E)).length then
        some ((none : Option E), (List.range actors.length).map OkRun.Event.spawn
          ++ (List.range actors.length).map OkRun.Event.interrupt)
      else none) = some none
    rw [if_pos (by omega)]
    rfl

/-- C6 witness: two sidecars both completing with nil — the run returns nil
after consuming both completions. -/
theorem all_sidecars_nil_terminates_witness :
    OkRun.GroupRun [(⟨none, true⟩ : OkRun.SActor Nat), ⟨none, true⟩]
      [⟨true, none⟩, ⟨true, none⟩] = some none ∧
    OkRun.waitLoop [(⟨true, none⟩ : OkRun.SResult Nat), ⟨true, none⟩]
      ([(⟨none, true⟩ : OkRun.SActor Nat), ⟨none, true⟩]).length = some (none, 0, []) :=
  all_sidecars_nil_terminates [⟨none, true⟩, ⟨none, true⟩] [⟨true, none⟩, ⟨true, none⟩]
    (by decide) (by decide)

/-- C3 witness: a qualifying first completion (non-sidecar, error 2) makes
its error authoritative; a sidecar's nil completion is transparent. -/
theorem completion_trigger_characterization_witness :
    OkRun.GroupRun [(⟨some 2, false⟩ : OkRun.SActor Nat)] [⟨false, some 2⟩]
      = some (OkRun.SResult.err ⟨false, some 2⟩) ∧
    OkRun.GroupRun [(⟨none, true⟩ : OkRun.SActor Nat), ⟨some 1, false⟩]
        (OkRun.SActor.result ⟨none, true⟩ :: [⟨false, some 1⟩])
      = OkRun.GroupRun [(⟨some 1, false⟩ : OkRun.SActor Nat)] [⟨false, some 1⟩] :=
  ⟨(completion_trigger_characterization Nat).1 [⟨some 2, false⟩] ⟨false, some 2⟩ []
      (by decide) (by decide),
   (completion_trigger_characterization Nat).2 ⟨none, true⟩ [⟨some 1, false⟩]
      [⟨false, some 1⟩] (by decide) (by decide)⟩

/-- C7 witness: concrete instantiation at `E = Nat`. -/
theorem zero_actors_returns_nil_witness :
    OkRun.GroupRunT ([] : List (OkRun.SActor Nat)) [] = some (none, []) ∧
    CtxRun.run (⟨[], 5, true⟩ : CtxRun.CGroup Nat) [] = some (0, none) :=
  ⟨(zero_actors_returns_nil Nat).1, (zero_actors_returns_nil Nat).2 5 true⟩

/-- C4: with ordered/synchronous shutdown enabled, once shutdown triggers
the interrupts run strictly sequentially in registration order — the event
log is `start 0, return 0, start 1, return 1, ...`, so every interrupt
returns before the next one starts, and the log of interrupt completions is
exactly the registration order `0, 1, ..., n-1`. -/
theorem ordered_shutdown_sequential {E : Type} (g : CtxRun.CGroup E)
    (hsync : g.syncShutdown = true)
    (hret : ∀ a ∈ g.actors, (a.interruptDur (CtxRun.closeDeadline g)).isSome = true) :
    ∃ evs, CtxRun.closeLog g = some evs ∧
      evs = CtxRun.pairedEvents 0 g.actors.length ∧
      CtxRun.completionsOf evs = List.range g.actors.length := by
  refine ⟨CtxRun.syncCloseEvents (CtxRun.closeDeadline g) g.actors 0, ?_, ?_, ?_⟩
  · unfold CtxRun.closeLog
    rw [hsync]
    rfl
  · exact CtxRun.syncCloseEvents_all_ret _ g.actors 0 hret
  · rw [CtxRun.syncCloseEvents_all_ret _ g.actors 0 hret,
      CtxRun.completionsOf_pairedEvents, List.range_eq_range']

/-- C4 witness: three actors X, Y, Z (indices 0, 1, 2) with synchronous
shutdown — the completion log records exactly 0, 1, 2. -/
theorem ordered_shutdown_sequential_witness :
    ∃ evs,
      CtxRun.closeLog (⟨[⟨none, fun _ => some 1⟩, ⟨none, fun _ => some 2⟩,
          ⟨none, fun _ => some 3⟩], 0, true⟩ : CtxRun.CGroup Nat) = some evs ∧
      evs = CtxRun.pairedEvents 0 3 ∧
      CtxRun.completionsOf evs = List.range 3 :=
  ordered_shutdown_sequential
    (⟨[⟨none, fun _ => some 1⟩, ⟨none, fun _ => some 2⟩, ⟨none, fun _ => some 3⟩],
      0, true⟩ : CtxRun.CGroup Nat) rfl (by decide)

/-- C8 counterexample: with two registered components, the first not alive
and the second alive, the aggregate is false, and flipping the second
component's liveness leaves the aggregate false — flipping one component's
liveness does not always flip the aggregate. -/
theorem alive_flip_counterexample :
    PkgRun.Group.Alive
        (⟨[⟨false, none, fun _ => none⟩, ⟨true, none, fun _ => none⟩],
          ⟨[], 0, false⟩⟩ : PkgRun.Group Nat) = false ∧
    PkgRun.Group.Alive
        (⟨PkgRun.flipAliveAt [⟨false, none, fun _ => none⟩, ⟨true, none, fun _ => none⟩] 1,
          ⟨[], 0, false⟩⟩ : PkgRun.Group Nat) = false :=
  ⟨rfl, rfl⟩

/-- C8 amended: `Group.Alive` returns true iff every registered component's
`Alive` is true (false iff at least one is false); flipping one component's
liveness flips the aggregate provided every other component is alive. -/
theorem alive_aggregate {E : Type} (g : PkgRun.Group E) (i : Nat)
    (hi : i < g.runnables.length) :
    (PkgRun.Group.Alive g = true ↔ ∀ r ∈ g.runnables, r.alive = true) ∧
    ((∀ j, (hj : j < g.runnables.length) → j ≠ i →
        (g.runnables.get ⟨j, hj⟩).alive = true) →
      PkgRun.Group.Alive (⟨PkgRun.flipAliveAt g.runnables i, g.inner⟩ : PkgRun.Group E)
        = !PkgRun.Group.Alive g) := by
  refine ⟨PkgRun.aliveLoop_eq_true_iff g.runnables, ?_⟩
  intro hothers
  exact PkgRun.aliveLoop_flip g.runnables i hi hothers

/-- C8 amended witness: a single alive component; flipping it flips the
aggregate. -/
theorem alive_aggregate_witness :
    (PkgRun.Group.Alive (⟨[⟨true, none, fun _ => none⟩], ⟨[], 0, false⟩⟩ : PkgRun.Group Nat)
        = true ↔
      ∀ r ∈ (⟨[⟨true, none, fun _ => none⟩], ⟨[], 0, false⟩⟩ : PkgRun.Group Nat).runnables,
        r.alive = true) ∧
    ((∀ j, (hj : j < (⟨[⟨true, none, fun _ => none⟩], ⟨[], 0, false⟩⟩ :
          PkgRun.Group Nat).runnables.length) → j ≠ 0 →
        ((⟨[⟨true, none, fun _ => none⟩], ⟨[], 0, false⟩⟩ :
          PkgRun.Group Nat).runnables.get ⟨j, hj⟩).alive = true) →
      PkgRun.Group.Alive
          (⟨PkgRun.flipAliveAt (⟨[⟨true, none, fun _ => none⟩], ⟨[], 0, false⟩⟩ :
              PkgRun.Group Nat).runnables 0,
            (⟨[⟨true, none, fun _ => none⟩], ⟨[], 0, false⟩⟩ : PkgRun.Group Nat).inner⟩ :
            PkgRun.Group Nat)
        = !PkgRun.Group.Alive (⟨[⟨true, none, fun _ => none⟩], ⟨[], 0, false⟩⟩ :
            PkgRun.Group Nat)) :=
  alive_aggregate (⟨[⟨true, none, fun _ => none⟩], ⟨[], 0, false⟩⟩ : PkgRun.Group Nat) 0
    (by decide)

/-- C9 counterexample: the package-level singleton surface of
`singleton.go` has three operations (Add, Run, Alive); it exposes no
AddUnconditional operation, so it does not consist of the four claimed
operations. -/
theorem singleton_ops_counterexample :
    "AddUnconditional" ∉ PkgRun.singletonOps ∧ PkgRun.singletonOps.length = 3 := by
  decide

/-- C9 amended: the process-wide convenience instance exposes three
package-level operations (Add, Run, Alive), each observationally equivalent
to — indeed definitionally pure delegation to — the corresponding method on
the single global Group. -/
theorem singleton_delegation {E : Type} (st : PkgRun.Group E) (when : Bool)
    (rs : List (PkgRun.Runnable E)) (arrivals : List (Option E)) :
    PkgRun.Add when rs st = PkgRun.Group.Add st when rs ∧
    PkgRun.Run st arrivals = PkgRun.Group.Run st arrivals ∧
    PkgRun.Alive st = PkgRun.Group.Alive st :=
  ⟨rfl, rfl, rfl⟩

/-- C9 amended witness: delegation at a concrete singleton state. -/
theorem singleton_delegation_witness :
    PkgRun.Add true [(⟨true, some 4, fun _ => some 0⟩ : PkgRun.Runnable Nat)]
        (⟨[], ⟨[], 0, false⟩⟩ : PkgRun.Group Nat)
      = PkgRun.Group.Add (⟨[], ⟨[], 0, false⟩⟩ : PkgRun.Group Nat) true
          [⟨true, some 4, fun _ => some 0⟩] ∧
    PkgRun.Run (⟨[], ⟨[], 0, false⟩⟩ : PkgRun.Group Nat) []
      = PkgRun.Group.Run (⟨[], ⟨[], 0, false⟩⟩ : PkgRun.Group Nat) [] ∧
    PkgRun.Alive (⟨[], ⟨[], 0, false⟩⟩ : PkgRun.Group Nat)
      = PkgRun.Group.Alive (⟨[], ⟨[], 0, false⟩⟩ : PkgRun.Group Nat) :=
  singleton_delegation (⟨[], ⟨[], 0, false⟩⟩ : PkgRun.Group Nat) true
    [⟨true, some 4, fun _ => some 0⟩] []

/-- C10: the `ForwardCompatibility` default `Run` panics with the message
"runnables must implement run" for every context — it never returns a
value — while the defaults for `Close`, `Alive`, `Name` and `Fields` are
total: `Close` returns nil for every context, `Alive` returns true, `Name`
returns "unknown" and `Fields` returns the empty list. A Runnable embedding
these defaults without overriding `Run` therefore panics as soon as the
orchestrator invokes its `Run`. -/
theorem forward_compatibility_defaults (Ctx E A : Type) (c : Ctx) :
    Compat.FCRun Ctx E c = Compat.PanicOr.panics "runnables must implement run" ∧
    (∀ v : Option E, Compat.FCRun Ctx E c ≠ Compat.PanicOr.returns v) ∧
    Compat.FCClose Ctx E c = Compat.PanicOr.returns none ∧
    Compat.FCAlive = Compat.PanicOr.returns true ∧
    Compat.FCName = Compat.PanicOr.returns "unknown" ∧
    Compat.FCFields A = Compat.PanicOr.returns ([] : List A) :=
  ⟨rfl, fun _ h => Compat.PanicOr.noConfusion h, rfl, rfl, rfl, rfl⟩

/-- C10 witness: the defaults at a concrete context. -/
theorem forward_compatibility_defaults_witness :
    Compat.FCRun Unit Nat () = Compat.PanicOr.panics "runnables must implement run" ∧
    (∀ v : Option Nat, Compat.FCRun Unit Nat () ≠ Compat.PanicOr.returns v) ∧
    Compat.FCClose Unit Nat () = Compat.PanicOr.returns none ∧
    Compat.FCAlive = Compat.PanicOr.returns true ∧
    Compat.FCName = Compat.PanicOr.returns "unknown" ∧
    Compat.FCFields Nat = Compat.PanicOr.returns ([] : List Nat) :=
  forward_compatibility_defaults Unit Nat Nat ()
